import Mathlib

/-!
Verification of the NFSv4 ACL xattr codec and mutation API
(`nfs4acl`: `XAttrLoad`, `PackXAttr`, `AceGetWhoType`,
`AceWhoStringAtomLength`, the access-mask mutators and the ACE renderer).

Byte buffers are `List Nat` (each element a byte value `< 256`); Go strings
are byte strings and are likewise modelled as `List Nat`.  Go's
`binary.BigEndian.Uint32`/`PutUint32` become `beU32`/`putU32`.  A Go function
returning `(value, err)` becomes a pair; the runtime panic a Go slice
expression raises when its upper bound exceeds the buffer is modelled as a
distinct `panic` outcome.
-/

namespace Nfs4acl

/-- Size of xattr packing atoms (uint32) in bytes. -/
def ATOM_SIZE : Nat := 4

/-- Bytes of a (pure-ASCII) Go string literal. -/
def strBytes (s : String) : List Nat := s.data.map Char.toNat

/-- Default ACL Who string OWNER@. -/
def NFS4_ACL_WHO_OWNER_STRING : List Nat := strBytes "OWNER@"

/-- Default ACL Who string GROUP@. -/
def NFS4_ACL_WHO_GROUP_STRING : List Nat := strBytes "GROUP@"

/-- Default ACL Who string EVERYONE@. -/
def NFS4_ACL_WHO_EVERYONE_STRING : List Nat := strBytes "EVERYONE@"

/-- ACL Who enum: named principal. -/
def NFS4_ACL_WHO_NAMED : Nat := 0

/-- ACL Who enum: owner. -/
def NFS4_ACL_WHO_OWNER : Nat := 1

/-- ACL Who enum: group. -/
def NFS4_ACL_WHO_GROUP : Nat := 2

/-- ACL Who enum: everyone. -/
def NFS4_ACL_WHO_EVERYONE : Nat := 3

/-- ACE type enum: allow. -/
def NFS4_ACE_ACCESS_ALLOWED_ACE_TYPE : Nat := 0

/-- ACE type enum: deny. -/
def NFS4_ACE_ACCESS_DENIED_ACE_TYPE : Nat := 1

/-- ACE type enum: audit. -/
def NFS4_ACE_SYSTEM_AUDIT_ACE_TYPE : Nat := 2

/-- ACE type enum: alarm. -/
def NFS4_ACE_SYSTEM_ALARM_ACE_TYPE : Nat := 3

/-- ACE type display character for allow. -/
def TYPE_ALLOW : Nat := Char.toNat 'A'

/-- ACE type display character for deny. -/
def TYPE_DENY : Nat := Char.toNat 'D'

/-- ACE type display character for audit. -/
def TYPE_AUDIT : Nat := Char.toNat 'U'

/-- ACE type display character for alarm. -/
def TYPE_ALARM : Nat := Char.toNat 'L'

/-- ACE flag bit: file inherit. -/
def NFS4_ACE_FILE_INHERIT_ACE : Nat := 1

/-- ACE flag bit: directory inherit. -/
def NFS4_ACE_DIRECTORY_INHERIT_ACE : Nat := 2

/-- ACE flag bit: no propagate inherit. -/
def NFS4_ACE_NO_PROPAGATE_INHERIT_ACE : Nat := 4

/-- ACE flag bit: inherit only. -/
def NFS4_ACE_INHERIT_ONLY_ACE : Nat := 8

/-- ACE flag bit: successful access. -/
def NFS4_ACE_SUCCESSFUL_ACCESS_ACE_FLAG : Nat := 16

/-- ACE flag bit: failed access. -/
def NFS4_ACE_FAILED_ACCESS_ACE_FLAG : Nat := 32

/-- ACE flag bit: identifier group. -/
def NFS4_ACE_IDENTIFIER_GROUP : Nat := 64

/-- ACE flag bit: owner. -/
def NFS4_ACE_OWNER : Nat := 128

/-- ACE flag bit: group. -/
def NFS4_ACE_GROUP : Nat := 256

/-- ACE flag bit: everyone. -/
def NFS4_ACE_EVERYONE : Nat := 512

/-- ACE flag display character. -/
def FLAG_FILE_INHERIT : Nat := Char.toNat 'f'

/-- ACE flag display character. -/
def FLAG_DIR_INHERIT : Nat := Char.toNat 'd'

/-- ACE flag display character. -/
def FLAG_NO_PROPAGATE_INHERIT : Nat := Char.toNat 'n'

/-- ACE flag display character. -/
def FLAG_INHERIT_ONLY : Nat := Char.toNat 'i'

/-- ACE flag display character. -/
def FLAG_SUCCESSFUL_ACCESS : Nat := Char.toNat 'S'

/-- ACE flag display character. -/
def FLAG_FAILED_ACCESS : Nat := Char.toNat 'F'

/-- ACE flag display character. -/
def FLAG_GROUP : Nat := Char.toNat 'g'

/-- ACE flag display character. -/
def FLAG_OWNER_AT : Nat := Char.toNat 'O'

/-- ACE flag display character. -/
def FLAG_GROUP_AT : Nat := Char.toNat 'G'

/-- ACE flag display character. -/
def FLAG_EVERYONE_AT : Nat := Char.toNat 'E'

/-- Access mask bit. -/
def NFS4_ACE_READ_DATA : Nat := 0x00000001

/-- Access mask bit (same value as READ_DATA). -/
def NFS4_ACE_LIST_DIRECTORY : Nat := 0x00000001

/-- Access mask bit. -/
def NFS4_ACE_WRITE_DATA : Nat := 0x00000002

/-- Access mask bit (same value as WRITE_DATA). -/
def NFS4_ACE_ADD_FILE : Nat := 0x00000002

/-- Access mask bit. -/
def NFS4_ACE_APPEND_DATA : Nat := 0x00000004

/-- Access mask bit (same value as APPEND_DATA). -/
def NFS4_ACE_ADD_SUBDIRECTORY : Nat := 0x00000004

/-- Access mask bit. -/
def NFS4_ACE_READ_NAMED_ATTRS : Nat := 0x00000008

/-- Access mask bit. -/
def NFS4_ACE_WRITE_NAMED_ATTRS : Nat := 0x00000010

/-- Access mask bit. -/
def NFS4_ACE_EXECUTE : Nat := 0x00000020

/-- Access mask bit. -/
def NFS4_ACE_DELETE_CHILD : Nat := 0x00000040

/-- Access mask bit. -/
def NFS4_ACE_READ_ATTRIBUTES : Nat := 0x00000080

/-- Access mask bit. -/
def NFS4_ACE_WRITE_ATTRIBUTES : Nat := 0x00000100

/-- Access mask bit. -/
def NFS4_ACE_DELETE : Nat := 0x00010000

/-- Access mask bit. -/
def NFS4_ACE_READ_ACL : Nat := 0x00020000

/-- Access mask bit. -/
def NFS4_ACE_WRITE_ACL : Nat := 0x00040000

/-- Access mask bit. -/
def NFS4_ACE_WRITE_OWNER : Nat := 0x00080000

/-- Access mask bit. -/
def NFS4_ACE_SYNCHRONIZE : Nat := 0x00100000

/-- Permission display character. -/
def PERM_READ_DATA : Nat := Char.toNat 'r'

/-- Permission display character. -/
def PERM_WRITE_DATA : Nat := Char.toNat 'w'

/-- Permission display character. -/
def PERM_APPEND_DATA : Nat := Char.toNat 'a'

/-- Permission display character (alias of PERM_READ_DATA). -/
def PERM_LIST_DIR : Nat := PERM_READ_DATA

/-- Permission display character (alias of PERM_WRITE_DATA). -/
def PERM_CREATE_FILE : Nat := PERM_WRITE_DATA

/-- Permission display character (alias of PERM_APPEND_DATA). -/
def PERM_CREATE_SUBDIR : Nat := PERM_APPEND_DATA

/-- Permission display character. -/
def PERM_DELETE_CHILD : Nat := Char.toNat 'D'

/-- Permission display character. -/
def PERM_DELETE : Nat := Char.toNat 'd'

/-- Permission display character. -/
def PERM_EXECUTE : Nat := Char.toNat 'x'

/-- Permission display character. -/
def PERM_READ_ATTR : Nat := Char.toNat 't'

/-- Permission display character. -/
def PERM_WRITE_ATTR : Nat := Char.toNat 'T'

/-- Permission display character. -/
def PERM_READ_NAMED_ATTR : Nat := Char.toNat 'n'

/-- Permission display character. -/
def PERM_WRITE_NAMED_ATTR : Nat := Char.toNat 'N'

/-- Permission display character. -/
def PERM_READ_ACL : Nat := Char.toNat 'c'

/-- Permission display character. -/
def PERM_WRITE_ACL : Nat := Char.toNat 'C'

/-- Permission display character. -/
def PERM_WRITE_OWNER : Nat := Char.toNat 'o'

/-- Permission display character. -/
def PERM_SYNCHRONIZE : Nat := Char.toNat 'y'

/-- `binary.BigEndian.Uint32` on the front of a byte list (the Go code only
invokes it where at least four bytes remain). -/
def beU32 : List Nat → Nat
  | b0 :: b1 :: b2 :: b3 :: _ => ((b0 * 256 + b1) * 256 + b2) * 256 + b3
  | _ => 0

/-- `binary.BigEndian.Uint32(value[i:])`. -/
def readU32 (value : List Nat) (i : Nat) : Nat := beU32 (value.drop i)

/-- `binary.BigEndian.PutUint32`: the four big-endian bytes of the low 32 bits. -/
def putU32 (v : Nat) : List Nat :=
  [v / 16777216 % 256, v / 65536 % 256, v / 256 % 256, v % 256]

/-- `AceGetWhoType`: exact match of the who string against the three
well-known literals; anything else is NAMED. -/
def AceGetWhoType (who : List Nat) : Nat :=
  if who = NFS4_ACL_WHO_OWNER_STRING then NFS4_ACL_WHO_OWNER
  else if who = NFS4_ACL_WHO_GROUP_STRING then NFS4_ACL_WHO_GROUP
  else if who = NFS4_ACL_WHO_EVERYONE_STRING then NFS4_ACL_WHO_EVERYONE
  else NFS4_ACL_WHO_NAMED

/-- `AceWhoStringAtomLength`: who-string length rounded down to an atom
multiple, plus one atom when that rounding lost bytes. -/
def AceWhoStringAtomLength (whoLength : Nat) : Nat :=
  let whoIncrement := whoLength / ATOM_SIZE * ATOM_SIZE
  if whoIncrement < whoLength then whoIncrement + ATOM_SIZE else whoIncrement

/-- The `NFS4ACE` struct. -/
structure NFS4ACE where
  AceType : Nat
  WhoType : Nat
  Who : List Nat
  Flags : Nat
  AccessMask : Nat
deriving DecidableEq

/-- `NewNFS4ACE`: the ACE constructor, deriving `WhoType` from `Who`. -/
def NewNFS4ACE (aceType flag mask : Nat) (who : List Nat) : NFS4ACE :=
  { AceType := aceType
    Who := who
    WhoType := AceGetWhoType who
    Flags := flag
    AccessMask := mask }

/-- The `NFS4ACL` struct. -/
structure NFS4ACL where
  isDirectory : Bool
  aceList : List NFS4ACE
deriving DecidableEq

/-- The two decode error values produced by `XAttrLoad`. -/
inductive DecodeErr where
  | invalidInput
  | bufferOverflow
deriving DecidableEq

/-- Outcome of the ACE-reading loop of `XAttrLoad`: normal completion with the
final cursor, an error return (carrying the entries appended so far, since the
Go named return yields them to the caller alongside the error), or a runtime
panic from an out-of-range slice expression. -/
inductive LoadRes where
  | ok (aces : List NFS4ACE) (fin : Nat)
  | err (aces : List NFS4ACE) (e : DecodeErr)
  | panic
deriving DecidableEq

/-- The entry-reading loop of `XAttrLoad`, by remaining entry count.  The Go
slice `value[curAtom:(whoLen+curAtom)]` is unguarded: when its upper bound
exceeds the buffer length (= capacity, as in the real caller) it panics. -/
def loadAces (value : List Nat) : Nat → Nat → LoadRes
  | 0, cur => .ok [] cur
  | n + 1, curAtom =>
    if curAtom ≥ value.length then .err [] .bufferOverflow
    else if curAtom + ATOM_SIZE * 4 ≥ value.length then .err [] .bufferOverflow
    else
      let aceType := readU32 value curAtom
      let aceFlag := readU32 value (curAtom + ATOM_SIZE)
      let aceMask := readU32 value (curAtom + 2 * ATOM_SIZE)
      let whoLen := readU32 value (curAtom + 3 * ATOM_SIZE)
      if value.length < curAtom + 4 * ATOM_SIZE + whoLen then .panic
      else
        let aceWho := (value.drop (curAtom + 4 * ATOM_SIZE)).take whoLen
        let newACE := NewNFS4ACE aceType aceFlag aceMask aceWho
        match loadAces value n (curAtom + 4 * ATOM_SIZE + AceWhoStringAtomLength whoLen) with
        | .ok aces fin => .ok (newACE :: aces) fin
        | .err aces e => .err (newACE :: aces) e
        | .panic => .panic

/-- Result of `XAttrLoad`: the Go `(newACL *NFS4ACL, err error)` pair, or a
runtime panic. -/
inductive XAttrResult where
  | ret (acl : NFS4ACL) (err : Option DecodeErr)
  | panic
deriving DecidableEq

/-- `XAttrLoad`: decode the xattr byte buffer into an ACL. -/
def XAttrLoad (value : List Nat) (isDir : Bool) : XAttrResult :=
  if value.length < ATOM_SIZE then .ret ⟨isDir, []⟩ (some .invalidInput)
  else
    match loadAces value (readU32 value 0) ATOM_SIZE with
    | .ok aces _ => .ret ⟨isDir, aces⟩ none
    | .err aces e => .ret ⟨isDir, aces⟩ (some e)
    | .panic => .panic

/-- One packed ACE: four header atoms, the who bytes, then the zero bytes the
zero-initialised output buffer leaves in the padding region. -/
def encodeAce (ace : NFS4ACE) : List Nat :=
  putU32 ace.AceType ++ putU32 ace.Flags ++ putU32 ace.AccessMask ++
    putU32 ace.Who.length ++ ace.Who ++
    List.replicate (AceWhoStringAtomLength ace.Who.length - ace.Who.length) 0

/-- `PackXAttr`: the count atom followed by each entry's bytes, in order
(the Go version writes the same bytes sequentially into a buffer of exactly
`XAttrSize` zero bytes; packing never returns an error). -/
def PackXAttr (acl : NFS4ACL) : List Nat :=
  putU32 acl.aceList.length ++ (acl.aceList.map encodeAce).flatten

/-- `applyAccessMask` on one ACE: bitwise OR of the operand into the mask. -/
def applyAccessMask (ace : NFS4ACE) (accessMask : Nat) : NFS4ACE :=
  { ace with AccessMask := ace.AccessMask ||| accessMask }

/-- `removeAccessMask` on one ACE: Go `&^` (AND NOT), bit clear. -/
def removeAccessMask (ace : NFS4ACE) (accessMask : Nat) : NFS4ACE :=
  { ace with AccessMask := Nat.ldiff ace.AccessMask accessMask }

/-- `setAccessMask` on one ACE: total overwrite. -/
def setAccessMask (ace : NFS4ACE) (accessMask : Nat) : NFS4ACE :=
  { ace with AccessMask := accessMask }

/-- The two error values the by-who-type mutators return. -/
inductive MutErr where
  | namedWhoNotAllowed
  | unsupportedWhoType
deriving DecidableEq

/-- `ApplyAccessMask`: OR the operand into every entry's mask. -/
def ApplyAccessMask (acl : NFS4ACL) (accessMask : Nat) : NFS4ACL :=
  { acl with aceList := acl.aceList.map (fun ace => applyAccessMask ace accessMask) }

/-- `ApplyAccessMaskByWhoType`: OR the operand into entries of the given
who-type; NAMED and out-of-range who-types are rejected with the receiver
left untouched.  The pair is the receiver state after the call and the
returned error. -/
def ApplyAccessMaskByWhoType (acl : NFS4ACL) (accessMask whoType : Nat) :
    NFS4ACL × Option MutErr :=
  if whoType = NFS4_ACL_WHO_NAMED then (acl, some .namedWhoNotAllowed)
  else if whoType < NFS4_ACL_WHO_NAMED ∨ whoType > NFS4_ACL_WHO_EVERYONE then
    (acl, some .unsupportedWhoType)
  else
    ({ acl with aceList := acl.aceList.map (fun ace =>
        if ace.WhoType = whoType then applyAccessMask ace accessMask else ace) },
      none)

/-- `ApplyAccessMaskByWho`: OR the operand into entries whose who string
matches exactly; never an error. -/
def ApplyAccessMaskByWho (acl : NFS4ACL) (accessMask : Nat) (who : List Nat) :
    NFS4ACL × Option MutErr :=
  ({ acl with aceList := acl.aceList.map (fun ace =>
      if ace.Who = who then applyAccessMask ace accessMask else ace) },
    none)

/-- `RemoveAccessMask`: clear the operand bits in every entry's mask. -/
def RemoveAccessMask (acl : NFS4ACL) (accessMask : Nat) : NFS4ACL :=
  { acl with aceList := acl.aceList.map (fun ace => removeAccessMask ace accessMask) }

/-- `RemoveAccessMaskByWhoType`: clear the operand bits in entries of the
given who-type; same guard as the apply variant. -/
def RemoveAccessMaskByWhoType (acl : NFS4ACL) (accessMask whoType : Nat) :
    NFS4ACL × Option MutErr :=
  if whoType = NFS4_ACL_WHO_NAMED then (acl, some .namedWhoNotAllowed)
  else if whoType < NFS4_ACL_WHO_NAMED ∨ whoType > NFS4_ACL_WHO_EVERYONE then
    (acl, some .unsupportedWhoType)
  else
    ({ acl with aceList := acl.aceList.map (fun ace =>
        if ace.WhoType = whoType then removeAccessMask ace accessMask else ace) },
      none)

/-- `RemoveAccessMaskByWho`: clear the operand bits in entries whose who
string matches exactly; never an error. -/
def RemoveAccessMaskByWho (acl : NFS4ACL) (accessMask : Nat) (who : List Nat) :
    NFS4ACL × Option MutErr :=
  ({ acl with aceList := acl.aceList.map (fun ace =>
      if ace.Who = who then removeAccessMask ace accessMask else ace) },
    none)

/-- `SetAccessMask`: overwrite every entry's mask with the operand. -/
def SetAccessMask (acl : NFS4ACL) (accessMask : Nat) : NFS4ACL :=
  { acl with aceList := acl.aceList.map (fun ace => setAccessMask ace accessMask) }

/-- `SetAccessMaskByWhoType`: overwrite the mask of entries of the given
who-type; same guard as the apply variant. -/
def SetAccessMaskByWhoType (acl : NFS4ACL) (accessMask whoType : Nat) :
    NFS4ACL × Option MutErr :=
  if whoType = NFS4_ACL_WHO_NAMED then (acl, some .namedWhoNotAllowed)
  else if whoType < NFS4_ACL_WHO_NAMED ∨ whoType > NFS4_ACL_WHO_EVERYONE then
    (acl, some .unsupportedWhoType)
  else
    ({ acl with aceList := acl.aceList.map (fun ace =>
        if ace.WhoType = whoType then setAccessMask ace accessMask else ace) },
      none)

/-- `SetAccessMaskByWho`: overwrite the mask of entries whose who string
matches exactly; never an error. -/
def SetAccessMaskByWho (acl : NFS4ACL) (accessMask : Nat) (who : List Nat) :
    NFS4ACL × Option MutErr :=
  ({ acl with aceList := acl.aceList.map (fun ace =>
      if ace.Who = who then setAccessMask ace accessMask else ace) },
    none)

/-- `PrintACE`: the bytes of the line the renderer prints for one ACE
(type char, colon, flag chars, colon, who, colon, permission chars). -/
def PrintACE (ace : NFS4ACE) (verbose isDir : Bool) : List Nat :=
  (if verbose then
    (if ace.AceType = NFS4_ACE_ACCESS_ALLOWED_ACE_TYPE then strBytes "ALLOW"
     else if ace.AceType = NFS4_ACE_ACCESS_DENIED_ACE_TYPE then strBytes "DENY"
     else if ace.AceType = NFS4_ACE_SYSTEM_AUDIT_ACE_TYPE then strBytes "AUDIT"
     else if ace.AceType = NFS4_ACE_SYSTEM_ALARM_ACE_TYPE then strBytes "ALARM"
     else [])
   else
    (if ace.AceType = NFS4_ACE_ACCESS_ALLOWED_ACE_TYPE then [TYPE_ALLOW]
     else if ace.AceType = NFS4_ACE_ACCESS_DENIED_ACE_TYPE then [TYPE_DENY]
     else if ace.AceType = NFS4_ACE_SYSTEM_AUDIT_ACE_TYPE then [TYPE_AUDIT]
     else if ace.AceType = NFS4_ACE_SYSTEM_ALARM_ACE_TYPE then [TYPE_ALARM]
     else [])) ++
  [Char.toNat ':'] ++
  (if Nat.land ace.Flags NFS4_ACE_FILE_INHERIT_ACE ≠ 0 then [FLAG_FILE_INHERIT] else []) ++
  (if Nat.land ace.Flags NFS4_ACE_DIRECTORY_INHERIT_ACE ≠ 0 then [FLAG_DIR_INHERIT] else []) ++
  (if Nat.land ace.Flags NFS4_ACE_NO_PROPAGATE_INHERIT_ACE ≠ 0 then [FLAG_NO_PROPAGATE_INHERIT] else []) ++
  (if Nat.land ace.Flags NFS4_ACE_INHERIT_ONLY_ACE ≠ 0 then [FLAG_INHERIT_ONLY] else []) ++
  (if Nat.land ace.Flags NFS4_ACE_SUCCESSFUL_ACCESS_ACE_FLAG ≠ 0 then [FLAG_SUCCESSFUL_ACCESS] else []) ++
  (if Nat.land ace.Flags NFS4_ACE_FAILED_ACCESS_ACE_FLAG ≠ 0 then [FLAG_FAILED_ACCESS] else []) ++
  (if Nat.land ace.Flags NFS4_ACE_IDENTIFIER_GROUP ≠ 0 then [FLAG_GROUP] else []) ++
  (if Nat.land ace.Flags NFS4_ACE_OWNER ≠ 0 then [FLAG_OWNER_AT] else []) ++
  (if Nat.land ace.Flags NFS4_ACE_GROUP ≠ 0 then [FLAG_GROUP_AT] else []) ++
  (if Nat.land ace.Flags NFS4_ACE_EVERYONE ≠ 0 then [FLAG_EVERYONE_AT] else []) ++
  [Char.toNat ':'] ++
  ace.Who ++
  [Char.toNat ':'] ++
  (if isDir then
    (if Nat.land ace.AccessMask NFS4_ACE_LIST_DIRECTORY ≠ 0 then [PERM_LIST_DIR] else []) ++
    (if Nat.land ace.AccessMask NFS4_ACE_ADD_FILE ≠ 0 then [PERM_CREATE_FILE] else []) ++
    (if Nat.land ace.AccessMask NFS4_ACE_ADD_SUBDIRECTORY ≠ 0 then [PERM_CREATE_SUBDIR] else []) ++
    (if Nat.land ace.AccessMask NFS4_ACE_DELETE_CHILD ≠ 0 then [PERM_DELETE_CHILD] else [])
   else
    (if Nat.land ace.AccessMask NFS4_ACE_READ_DATA ≠ 0 then [PERM_READ_DATA] else []) ++
    (if Nat.land ace.AccessMask NFS4_ACE_WRITE_DATA ≠ 0 then [PERM_WRITE_DATA] else []) ++
    (if Nat.land ace.AccessMask NFS4_ACE_APPEND_DATA ≠ 0 then [PERM_APPEND_DATA] else [])) ++
  (if Nat.land ace.AccessMask NFS4_ACE_DELETE ≠ 0 then [PERM_DELETE] else []) ++
  (if Nat.land ace.AccessMask NFS4_ACE_EXECUTE ≠ 0 then [PERM_EXECUTE] else []) ++
  (if Nat.land ace.AccessMask NFS4_ACE_READ_ATTRIBUTES ≠ 0 then [PERM_READ_ATTR] else []) ++
  (if Nat.land ace.AccessMask NFS4_ACE_WRITE_ATTRIBUTES ≠ 0 then [PERM_WRITE_ATTR] else []) ++
  (if Nat.land ace.AccessMask NFS4_ACE_READ_NAMED_ATTRS ≠ 0 then [PERM_READ_NAMED_ATTR] else []) ++
  (if Nat.land ace.AccessMask NFS4_ACE_WRITE_NAMED_ATTRS ≠ 0 then [PERM_WRITE_NAMED_ATTR] else []) ++
  (if Nat.land ace.AccessMask NFS4_ACE_READ_ACL ≠ 0 then [PERM_READ_ACL] else []) ++
  (if Nat.land ace.AccessMask NFS4_ACE_WRITE_ACL ≠ 0 then [PERM_WRITE_ACL] else []) ++
  (if Nat.land ace.AccessMask NFS4_ACE_WRITE_OWNER ≠ 0 then [PERM_WRITE_OWNER] else []) ++
  (if Nat.land ace.AccessMask NFS4_ACE_SYNCHRONIZE ≠ 0 then [PERM_SYNCHRONIZE] else [])

/-- A structurally valid in-memory ACE: the three 32-bit fields and the who
length fit the wire atoms (Go uint32), and the derived who-type is consistent
with the who string (the data-model invariant; `NewNFS4ACE` establishes it). -/
def validAce (ace : NFS4ACE) : Prop :=
  ace.AceType < 4294967296 ∧ ace.Flags < 4294967296 ∧
    ace.AccessMask < 4294967296 ∧ ace.Who.length < 4294967296 ∧
    ace.WhoType = AceGetWhoType ace.Who

/-- Structural validity is checkable. -/
instance validAce_decidable (ace : NFS4ACE) : Decidable (validAce ace) := by
  unfold validAce
  exact inferInstance

/-- Whether the final entry of the list, if any, has a non-empty who string
(the decoder's per-entry guard demands a byte beyond the last header atoms,
so only such ACLs survive a decode of their own encoding). -/
def lastWhoNonempty : List NFS4ACE → Bool
  | [] => true
  | [ace] => !ace.Who.isEmpty
  | _ :: rest => lastWhoNonempty rest

/-- The zero-fill side condition of the idempotent re-encode law: walking the
buffer exactly as the decode loop does, every entry's padding region lies
inside the buffer and holds only zero bytes (the spec's re-encode law is
byte-exact only when decode and encode agree on zero-filled padding). -/
def padsOk (value : List Nat) : Nat → Nat → Bool
  | 0, _ => true
  | n + 1, curAtom =>
    if curAtom + 4 * ATOM_SIZE +
        AceWhoStringAtomLength (readU32 value (curAtom + 3 * ATOM_SIZE)) ≤
        value.length then
      ((value.drop (curAtom + 4 * ATOM_SIZE +
          readU32 value (curAtom + 3 * ATOM_SIZE))).take
        (AceWhoStringAtomLength (readU32 value (curAtom + 3 * ATOM_SIZE)) -
          readU32 value (curAtom + 3 * ATOM_SIZE))).all (· == 0) &&
      padsOk value n (curAtom + 4 * ATOM_SIZE +
        AceWhoStringAtomLength (readU32 value (curAtom + 3 * ATOM_SIZE)))
    else false

/-- Frame relation for mutation claims: `b` agrees with `a` on every field
except that its access mask is exactly `mask`. -/
def sameButMask (a b : NFS4ACE) (mask : Nat) : Prop :=
  b.AceType = a.AceType ∧ b.WhoType = a.WhoType ∧ b.Who = a.Who ∧
    b.Flags = a.Flags ∧ b.AccessMask = mask

/-- Unfolding of one iteration of the decode loop. -/
theorem loadAces_succ (value : List Nat) (n curAtom : Nat) :
    loadAces value (n + 1) curAtom =
      (if curAtom ≥ value.length then .err [] .bufferOverflow
       else if curAtom + ATOM_SIZE * 4 ≥ value.length then .err [] .bufferOverflow
       else if value.length <
          curAtom + 4 * ATOM_SIZE + readU32 value (curAtom + 3 * ATOM_SIZE) then
        .panic
       else
        match loadAces value n (curAtom + 4 * ATOM_SIZE +
            AceWhoStringAtomLength (readU32 value (curAtom + 3 * ATOM_SIZE))) with
        | .ok aces fin =>
          .ok (NewNFS4ACE (readU32 value curAtom)
            (readU32 value (curAtom + ATOM_SIZE))
            (readU32 value (curAtom + 2 * ATOM_SIZE))
            ((value.drop (curAtom + 4 * ATOM_SIZE)).take
              (readU32 value (curAtom + 3 * ATOM_SIZE))) :: aces) fin
        | .err aces e =>
          .err (NewNFS4ACE (readU32 value curAtom)
            (readU32 value (curAtom + ATOM_SIZE))
            (readU32 value (curAtom + 2 * ATOM_SIZE))
            ((value.drop (curAtom + 4 * ATOM_SIZE)).take
              (readU32 value (curAtom + 3 * ATOM_SIZE))) :: aces) e
        | .panic => .panic) := rfl

/-- Unfolding of one iteration of the padding-zero-fill walk. -/
theorem padsOk_succ (value : List Nat) (n curAtom : Nat) :
    padsOk value (n + 1) curAtom =
      (if curAtom + 4 * ATOM_SIZE +
          AceWhoStringAtomLength (readU32 value (curAtom + 3 * ATOM_SIZE)) ≤
          value.length then
        ((value.drop (curAtom + 4 * ATOM_SIZE +
            readU32 value (curAtom + 3 * ATOM_SIZE))).take
          (AceWhoStringAtomLength (readU32 value (curAtom + 3 * ATOM_SIZE)) -
            readU32 value (curAtom + 3 * ATOM_SIZE))).all (· == 0) &&
        padsOk value n (curAtom + 4 * ATOM_SIZE +
          AceWhoStringAtomLength (readU32 value (curAtom + 3 * ATOM_SIZE)))
      else false) := rfl

/-- A packed uint32 occupies one atom. -/
theorem putU32_length (v : Nat) : (putU32 v).length = 4 := rfl

/-- Reading back a packed uint32 from the front of a buffer recovers its low
32 bits. -/
theorem beU32_putU32_append (x : Nat) (r : List Nat) :
    beU32 (putU32 x ++ r) = x % 4294967296 := by
  simp only [putU32, List.cons_append, List.nil_append, beU32]
  omega

/-- Reading a uint32 at a cursor whose suffix starts with a packed uint32. -/
theorem readU32_drop_eq (value : List Nat) (cur x : Nat) (r : List Nat)
    (h : value.drop cur = putU32 x ++ r) : readU32 value cur = x % 4294967296 := by
  rw [readU32, h, beU32_putU32_append]

/-- The padded atom length is at least the raw byte length. -/
theorem pad_ge (n : Nat) : n ≤ AceWhoStringAtomLength n := by
  simp only [AceWhoStringAtomLength, ATOM_SIZE]
  split <;> omega

/-- Byte size of one packed ACE: four header atoms plus the padded who
string. -/
theorem encodeAce_length (ace : NFS4ACE) :
    (encodeAce ace).length = 16 + AceWhoStringAtomLength ace.Who.length := by
  have h := pad_ge ace.Who.length
  simp [encodeAce, putU32]
  omega

/-- Dropping past a known prefix of a suffix. -/
theorem drop_peel (value pre post : List Nat) (cur : Nat)
    (h : value.drop cur = pre ++ post) :
    value.drop (cur + pre.length) = post := by
  have h2 := congrArg (List.drop pre.length) h
  rw [List.drop_drop, List.drop_left] at h2
  exact h2

/-- Re-packing the uint32 read from four in-range bytes reproduces those
bytes. -/
theorem putU32_beU32_of (l : List Nat) (hlen : 4 ≤ l.length)
    (hb : ∀ x ∈ l, x < 256) : putU32 (beU32 l) = l.take 4 := by
  match l with
  | [] => simp at hlen
  | [_] => simp at hlen
  | [_, _] => simp at hlen
  | [_, _, _] => simp at hlen
  | b0 :: b1 :: b2 :: b3 :: r =>
    have h0 : b0 < 256 := hb b0 (by simp)
    have h1 : b1 < 256 := hb b1 (by simp)
    have h2 : b2 < 256 := hb b2 (by simp)
    have h3 : b3 < 256 := hb b3 (by simp)
    show putU32 (beU32 (b0 :: b1 :: b2 :: b3 :: r)) = [b0, b1, b2, b3]
    simp only [beU32, putU32, List.cons.injEq, and_true]
    refine ⟨?_, ?_, ?_, ?_⟩ <;> omega

/-- Re-packing the uint32 read at an in-range cursor reproduces the four
bytes there. -/
theorem putU32_readU32 (value : List Nat) (cur : Nat)
    (hb : ∀ x ∈ value, x < 256) (hlen : cur + 4 ≤ value.length) :
    putU32 (readU32 value cur) = (value.drop cur).take 4 := by
  rw [readU32]
  refine putU32_beU32_of _ ?_ ?_
  · rw [List.length_drop]; omega
  · exact fun x hx => hb x (List.mem_of_mem_drop hx)

/-- Field computation of the ACE constructor. -/
theorem NewNFS4ACE_AceType (a b c : Nat) (w : List Nat) :
    (NewNFS4ACE a b c w).AceType = a := rfl

/-- Field computation of the ACE constructor. -/
theorem NewNFS4ACE_Flags (a b c : Nat) (w : List Nat) :
    (NewNFS4ACE a b c w).Flags = b := rfl

/-- Field computation of the ACE constructor. -/
theorem NewNFS4ACE_AccessMask (a b c : Nat) (w : List Nat) :
    (NewNFS4ACE a b c w).AccessMask = c := rfl

/-- Field computation of the ACE constructor. -/
theorem NewNFS4ACE_Who (a b c : Nat) (w : List Nat) :
    (NewNFS4ACE a b c w).Who = w := rfl

/-- Rebuilding an ACE from its own fields through the constructor gives it
back, provided its stored who-type satisfies the derivation invariant. -/
theorem NewNFS4ACE_eta (ace : NFS4ACE) (h : ace.WhoType = AceGetWhoType ace.Who) :
    NewNFS4ACE ace.AceType ace.Flags ace.AccessMask ace.Who = ace := by
  cases ace with
  | mk t wt w f m =>
    simp only [NewNFS4ACE, NFS4ACE.mk.injEq, true_and, and_true]
    exact Eq.symm h

/-- The last-who condition restricted to the tail. -/
theorem lastWhoNonempty_tail (a : NFS4ACE) (rest : List NFS4ACE)
    (h : lastWhoNonempty (a :: rest) = true) : lastWhoNonempty rest = true := by
  cases rest with
  | nil => rfl
  | cons b bs => exact h

/-- After an entry's four header atoms there is always at least one more
encoded byte: its own padded who string if it is last (non-empty by the
last-who condition), or the next entry's header otherwise. -/
theorem entry_space_pos (ace : NFS4ACE) (rest : List NFS4ACE)
    (hlast : lastWhoNonempty (ace :: rest) = true) :
    0 < AceWhoStringAtomLength ace.Who.length +
      ((rest.map encodeAce).flatten).length := by
  cases rest with
  | nil =>
    have hne : ace.Who.isEmpty = false := by
      simpa [lastWhoNonempty] using hlast
    have hpos : 0 < ace.Who.length := by
      cases hwho : ace.Who with
      | nil => rw [hwho] at hne; simp at hne
      | cons c cs => simp [hwho]
    have := pad_ge ace.Who.length
    simp only [List.map_nil, List.flatten_nil, List.length_nil]
    omega
  | cons b bs =>
    have h1 := encodeAce_length b
    have h2 : (((b :: bs).map encodeAce).flatten).length =
        (encodeAce b).length + ((bs.map encodeAce).flatten).length := by
      simp
    omega

/-- The decode loop inverts the per-entry encoding: started at a cursor whose
suffix is exactly the packed entries, it reproduces them and finishes at the
end of the buffer — provided every entry is structurally valid and the final
entry has a non-empty who string. -/
theorem loadAces_encode (aces : List NFS4ACE) :
    ∀ (value : List Nat) (cur : Nat),
      value.drop cur = (aces.map encodeAce).flatten →
      cur ≤ value.length →
      (∀ ace ∈ aces, validAce ace) →
      lastWhoNonempty aces = true →
      loadAces value aces.length cur = .ok aces value.length := by
  induction aces with
  | nil =>
    intro value cur hdrop hcur hvalid hlast
    simp only [List.map_nil, List.flatten_nil] at hdrop
    have hle := List.drop_eq_nil_iff.mp hdrop
    have hceq : cur = value.length := Nat.le_antisymm hcur hle
    subst hceq
    rfl
  | cons ace rest ih =>
    intro value cur hdrop hcur hvalid hlast
    simp only [List.map_cons, List.flatten_cons] at hdrop
    obtain ⟨hvt, hvf, hvm, hvw, hvwt⟩ := hvalid ace (by simp)
    have hpadge := pad_ge ace.Who.length
    have hea := encodeAce_length ace
    have hspace := entry_space_pos ace rest hlast
    have hlen_eq : value.length = cur + (16 + AceWhoStringAtomLength ace.Who.length)
        + ((rest.map encodeAce).flatten).length := by
      have h1 : (value.drop cur).length =
          (encodeAce ace ++ (rest.map encodeAce).flatten).length := by rw [hdrop]
      rw [List.length_drop, List.length_append, hea] at h1
      omega
    have h0 : value.drop cur = putU32 ace.AceType ++ (putU32 ace.Flags ++
        (putU32 ace.AccessMask ++ (putU32 ace.Who.length ++ (ace.Who ++
        (List.replicate (AceWhoStringAtomLength ace.Who.length - ace.Who.length) 0
          ++ (rest.map encodeAce).flatten))))) := by
      rw [hdrop]
      simp [encodeAce, List.append_assoc]
    have h1 : value.drop (cur + 4) = putU32 ace.Flags ++ (putU32 ace.AccessMask ++
        (putU32 ace.Who.length ++ (ace.Who ++
        (List.replicate (AceWhoStringAtomLength ace.Who.length - ace.Who.length) 0
          ++ (rest.map encodeAce).flatten)))) := by
      have h := drop_peel value _ _ cur h0
      rw [putU32_length] at h
      exact h
    have h2 : value.drop (cur + 8) = putU32 ace.AccessMask ++
        (putU32 ace.Who.length ++ (ace.Who ++
        (List.replicate (AceWhoStringAtomLength ace.Who.length - ace.Who.length) 0
          ++ (rest.map encodeAce).flatten))) := by
      have h := drop_peel value _ _ (cur + 4) h1
      rw [putU32_length, show cur + 4 + 4 = cur + 8 from by omega] at h
      exact h
    have h3 : value.drop (cur + 12) = putU32 ace.Who.length ++ (ace.Who ++
        (List.replicate (AceWhoStringAtomLength ace.Who.length - ace.Who.length) 0
          ++ (rest.map encodeAce).flatten)) := by
      have h := drop_peel value _ _ (cur + 8) h2
      rw [putU32_length, show cur + 8 + 4 = cur + 12 from by omega] at h
      exact h
    have h4 : value.drop (cur + 16) = ace.Who ++
        (List.replicate (AceWhoStringAtomLength ace.Who.length - ace.Who.length) 0
          ++ (rest.map encodeAce).flatten) := by
      have h := drop_peel value _ _ (cur + 12) h3
      rw [putU32_length, show cur + 12 + 4 = cur + 16 from by omega] at h
      exact h
    have h4' : value.drop (cur + 16) = (ace.Who ++
        List.replicate (AceWhoStringAtomLength ace.Who.length - ace.Who.length) 0)
          ++ (rest.map encodeAce).flatten := by
      rw [h4, List.append_assoc]
    have hprelen : (ace.Who ++
        List.replicate (AceWhoStringAtomLength ace.Who.length - ace.Who.length)
          0).length = AceWhoStringAtomLength ace.Who.length := by
      simp only [List.length_append, List.length_replicate]
      omega
    have h5 : value.drop (cur + 16 + AceWhoStringAtomLength ace.Who.length) =
        (rest.map encodeAce).flatten := by
      have h := drop_peel value _ _ (cur + 16) h4'
      rw [hprelen] at h
      exact h
    have ht : readU32 value cur = ace.AceType := by
      rw [readU32_drop_eq value cur ace.AceType _ h0, Nat.mod_eq_of_lt hvt]
    have hf : readU32 value (cur + ATOM_SIZE) = ace.Flags := by
      show readU32 value (cur + 4) = ace.Flags
      rw [readU32_drop_eq value (cur + 4) ace.Flags _ h1, Nat.mod_eq_of_lt hvf]
    have hm : readU32 value (cur + 2 * ATOM_SIZE) = ace.AccessMask := by
      show readU32 value (cur + 8) = ace.AccessMask
      rw [readU32_drop_eq value (cur + 8) ace.AccessMask _ h2, Nat.mod_eq_of_lt hvm]
    have hwl : readU32 value (cur + 3 * ATOM_SIZE) = ace.Who.length := by
      show readU32 value (cur + 12) = ace.Who.length
      rw [readU32_drop_eq value (cur + 12) ace.Who.length _ h3, Nat.mod_eq_of_lt hvw]
    have hwho : (value.drop (cur + 4 * ATOM_SIZE)).take ace.Who.length = ace.Who := by
      show (value.drop (cur + 16)).take ace.Who.length = ace.Who
      rw [h4]
      exact List.take_left' rfl
    have hA : ATOM_SIZE = 4 := rfl
    rw [List.length_cons, loadAces_succ]
    rw [if_neg (by omega), if_neg (by omega)]
    rw [hwl]
    rw [if_neg (by omega)]
    have hrec : loadAces value rest.length
        (cur + 4 * ATOM_SIZE + AceWhoStringAtomLength ace.Who.length) =
        .ok rest value.length := by
      refine ih value (cur + 4 * ATOM_SIZE + AceWhoStringAtomLength ace.Who.length)
        ?_ (by omega) (fun a ha => hvalid a (by simp [ha]))
        (lastWhoNonempty_tail ace rest hlast)
      show value.drop (cur + 16 + AceWhoStringAtomLength ace.Who.length) = _
      exact h5
    rw [hrec, ht, hf, hm, hwho, NewNFS4ACE_eta ace hvwt]

/-- Re-encoding what the decode loop read reproduces the consumed bytes:
whenever the loop accepts `n` entries from a byte buffer and the walked
padding regions are in-bounds and zero-filled, the packed entries equal the
consumed slice, byte for byte. -/
theorem encode_of_loadAces :
    ∀ (n : Nat) (value : List Nat) (cur : Nat) (aces : List NFS4ACE) (fin : Nat),
      (∀ x ∈ value, x < 256) →
      cur ≤ value.length →
      loadAces value n cur = .ok aces fin →
      padsOk value n cur = true →
      aces.length = n ∧ cur ≤ fin ∧ fin ≤ value.length ∧
        (aces.map encodeAce).flatten = (value.drop cur).take (fin - cur) := by
  intro n
  induction n with
  | zero =>
    intro value cur aces fin hb hcur hload hpad
    have h' : LoadRes.ok ([] : List NFS4ACE) cur = LoadRes.ok aces fin := hload
    injection h' with ha hf
    subst ha
    subst hf
    refine ⟨rfl, Nat.le_refl _, hcur, ?_⟩
    simp
  | succ n ih =>
    intro value cur aces fin hb hcur hload hpad
    rw [loadAces_succ] at hload
    by_cases hg1 : cur ≥ value.length
    · rw [if_pos hg1] at hload; simp at hload
    rw [if_neg hg1] at hload
    by_cases hg2 : cur + ATOM_SIZE * 4 ≥ value.length
    · rw [if_pos hg2] at hload; simp at hload
    rw [if_neg hg2] at hload
    by_cases hg3 : value.length <
        cur + 4 * ATOM_SIZE + readU32 value (cur + 3 * ATOM_SIZE)
    · rw [if_pos hg3] at hload; simp at hload
    rw [if_neg hg3] at hload
    rw [padsOk_succ] at hpad
    by_cases hg4 : cur + 4 * ATOM_SIZE +
        AceWhoStringAtomLength (readU32 value (cur + 3 * ATOM_SIZE)) ≤
        value.length
    case neg => rw [if_neg hg4] at hpad; simp at hpad
    rw [if_pos hg4, Bool.and_eq_true] at hpad
    obtain ⟨hzero, hpad'⟩ := hpad
    cases hrec : loadAces value n (cur + 4 * ATOM_SIZE +
        AceWhoStringAtomLength (readU32 value (cur + 3 * ATOM_SIZE))) with
    | err aces' e => rw [hrec] at hload; simp at hload
    | panic => rw [hrec] at hload; simp at hload
    | ok aces' fin' =>
      rw [hrec] at hload
      have h' : LoadRes.ok (NewNFS4ACE (readU32 value cur)
          (readU32 value (cur + 4)) (readU32 value (cur + 8))
          ((value.drop (cur + 16)).take (readU32 value (cur + 12))) :: aces')
          fin' = LoadRes.ok aces fin := hload
      injection h' with ha hfin
      subst ha
      subst hfin
      obtain ⟨ihlen, ih1, ih2, ih3⟩ := ih value
        (cur + 4 * ATOM_SIZE +
          AceWhoStringAtomLength (readU32 value (cur + 3 * ATOM_SIZE)))
        aces' fin' hb hg4 hrec hpad'
      have hA : ATOM_SIZE = 4 := rfl
      simp only [hA, Nat.reduceMul] at hg2 hg3 hg4 hzero ih1 ih3
      set wl := readU32 value (cur + 12) with hwl_def
      set pad := AceWhoStringAtomLength wl with hpad_def
      have hwlpad : wl ≤ pad := by rw [hpad_def]; exact pad_ge wl
      have hwholen : ((value.drop (cur + 16)).take wl).length = wl := by
        rw [List.length_take, List.length_drop]
        omega
      have hchunk1 : putU32 (readU32 value cur) = (value.drop cur).take 4 :=
        putU32_readU32 value cur hb (by omega)
      have hchunk2 : putU32 (readU32 value (cur + 4)) =
          (value.drop (cur + 4)).take 4 :=
        putU32_readU32 value (cur + 4) hb (by omega)
      have hchunk3 : putU32 (readU32 value (cur + 8)) =
          (value.drop (cur + 8)).take 4 :=
        putU32_readU32 value (cur + 8) hb (by omega)
      have hchunk4 : putU32 wl = (value.drop (cur + 12)).take 4 :=
        putU32_readU32 value (cur + 12) hb (by omega)
      have hrep : (value.drop (cur + 16 + wl)).take (pad - wl) =
          List.replicate (pad - wl) 0 := by
        rw [List.eq_replicate_iff]
        constructor
        · rw [List.length_take, List.length_drop]
          omega
        · intro b hbmem
          have hball := List.all_eq_true.mp hzero b hbmem
          simpa using hball
      have hfin_split : fin' - cur =
          4 + (4 + (4 + (4 + (wl + ((pad - wl) + (fin' - (cur + 16 + pad))))))) := by
        omega
      have hrhs : (value.drop cur).take (fin' - cur) =
          (value.drop cur).take 4 ++ ((value.drop (cur + 4)).take 4 ++
          ((value.drop (cur + 8)).take 4 ++ ((value.drop (cur + 12)).take 4 ++
          ((value.drop (cur + 16)).take wl ++
          ((value.drop (cur + 16 + wl)).take (pad - wl) ++
          (value.drop (cur + 16 + pad)).take (fin' - (cur + 16 + pad))))))) := by
        rw [hfin_split, List.take_add, List.drop_drop, List.take_add,
          List.drop_drop, List.take_add, List.drop_drop, List.take_add,
          List.drop_drop, List.take_add, List.drop_drop, List.take_add,
          List.drop_drop]
        simp only [Nat.add_assoc, Nat.reduceAdd]
        rw [show cur + (16 + (wl + (pad - wl))) = cur + (16 + pad) from by omega]
      refine ⟨by simp [ihlen], by omega, ih2, ?_⟩
      rw [hrhs, ← hchunk1, ← hchunk2, ← hchunk3, ← hchunk4, hrep, ← ih3]
      simp only [List.map_cons, List.flatten_cons]
      simp only [encodeAce, NewNFS4ACE_AceType, NewNFS4ACE_Flags,
        NewNFS4ACE_AccessMask, NewNFS4ACE_Who, hwholen]
      rw [← hpad_def]
      simp [List.append_assoc]

/-- Mapping a function over a list relates every element to its image. -/
theorem forall2_map_self {α : Type} {f : α → α} {r : α → α → Prop} :
    ∀ (l : List α), (∀ a ∈ l, r a (f a)) → List.Forall₂ r l (l.map f) := by
  intro l h
  induction l with
  | nil => exact List.Forall₂.nil
  | cons a t iht =>
    exact List.Forall₂.cons (h a (by simp)) (iht fun x hx => h x (by simp [hx]))

/-- Claim C1 (code bug exhibit): on a buffer whose declared who_length (100)
exceeds the single byte remaining after the entry's four header atoms, the
decoder's who-string slice is unguarded, so `XAttrLoad` ends in a runtime
panic rather than returning the MalformedBuffer decode error the claim (and
the spec) describe. -/
theorem c1_who_length_overrun_panics :
    XAttrLoad [0, 0, 0, 1, 0, 0, 0, 0, 0, 0, 0, 0, 0, 0, 0, 2, 0, 0, 0, 100, 0]
      false = XAttrResult.panic := by decide

/-- Claim C4 (amended): a buffer shorter than one atom is rejected with the
invalid-input error before any entry count is read, and a buffer claiming
entry_count = 1 with fewer than four further atoms is rejected with the
buffer-overflow error; in these cases the ACL value accompanying the error
holds no entries.  (As amended, the error travels alongside a — possibly
partially populated — ACL value, Go's named-return pair; see the
counterexample.) -/
theorem c4_truncation_rejected :
    (∀ (value : List Nat) (isDir : Bool), value.length < ATOM_SIZE →
      XAttrLoad value isDir = .ret ⟨isDir, []⟩ (some DecodeErr.invalidInput)) ∧
    (∀ (value : List Nat) (isDir : Bool), ATOM_SIZE ≤ value.length →
      readU32 value 0 = 1 → value.length < 5 * ATOM_SIZE →
      XAttrLoad value isDir = .ret ⟨isDir, []⟩ (some DecodeErr.bufferOverflow)) := by
  constructor
  · intro value isDir h
    simp [XAttrLoad, h]
  · intro value isDir h4 hcount hlen
    have hload : loadAces value 1 ATOM_SIZE = .err [] .bufferOverflow := by
      rw [loadAces_succ]
      rcases Nat.lt_or_ge ATOM_SIZE value.length with hgt | hle
      · rw [if_neg (by omega), if_pos (by simp only [ATOM_SIZE] at *; omega)]
      · rw [if_pos (by omega)]
    simp [XAttrLoad, hcount, hload, Nat.not_lt.mpr h4]

/-- Claim C4 witness: the two rejection branches at concrete truncated
buffers (length 3, and entry_count 1 with only 3 bytes after the count). -/
theorem c4_truncation_witness :
    XAttrLoad [0, 0, 0] false = .ret ⟨false, []⟩ (some DecodeErr.invalidInput) ∧
    XAttrLoad [0, 0, 0, 1, 0, 0, 0] false
      = .ret ⟨false, []⟩ (some DecodeErr.bufferOverflow) :=
  ⟨c4_truncation_rejected.1 [0, 0, 0] false (by decide),
   c4_truncation_rejected.2 [0, 0, 0, 1, 0, 0, 0] false (by decide) (by decide)
     (by decide)⟩

/-- Claim C4 counterexample to the claim as stated: a buffer declaring two
entries whose first entry parses completely and whose second is missing is
rejected with an error, but the ACL value returned alongside the error is
partially populated (it holds the first entry), not empty — the Go named
returns hand both to the caller. -/
theorem c4_partial_acl_counterexample :
    XAttrLoad [0, 0, 0, 2, 0, 0, 0, 0, 0, 0, 0, 0, 0, 0, 0, 0, 0, 0, 0, 1,
        65, 0, 0, 0] false
      = .ret ⟨false, [⟨0, 0, [65], 0, 0⟩]⟩ (some DecodeErr.bufferOverflow) ∧
    ([⟨0, 0, [65], 0, 0⟩] : List NFS4ACE) ≠ [] := by decide

/-- Claim C5: apply is bitwise OR, remove is bitwise AND-NOT, set is literal
overwrite (stated bit-by-bit via testBit), together with the concrete
0b00110101 / 0b00000011 example values from the spec. -/
theorem c5_mask_operation_semantics :
    (∀ (ace : NFS4ACE) (m i : Nat),
      ((applyAccessMask ace m).AccessMask.testBit i
          = (ace.AccessMask.testBit i || m.testBit i)) ∧
      ((removeAccessMask ace m).AccessMask.testBit i
          = (ace.AccessMask.testBit i && !(m.testBit i))) ∧
      (setAccessMask ace m).AccessMask = m) ∧
    (applyAccessMask ⟨0, 0, [], 0, 53⟩ 3).AccessMask = 55 ∧
    (removeAccessMask ⟨0, 0, [], 0, 53⟩ 3).AccessMask = 52 ∧
    (setAccessMask ⟨0, 0, [], 0, 53⟩ 3).AccessMask = 3 := by
  refine ⟨fun ace m i => ⟨?_, ?_, rfl⟩, by decide,
    by simp [removeAccessMask, Nat.ldiff, Nat.bitwise], by decide⟩
  · simp [applyAccessMask, Nat.testBit_lor]
  · simp [removeAccessMask, Nat.testBit_ldiff]

/-- Claim C6: who_type derivation is an exact, case-sensitive match over the
three well-known literals; every other byte string (empty, case variants,
trailing whitespace, arbitrary) derives NAMED; and the ACE constructor
(used both directly and by the decoder) derives WhoType by this function. -/
theorem c6_who_type_derivation :
    AceGetWhoType NFS4_ACL_WHO_OWNER_STRING = NFS4_ACL_WHO_OWNER ∧
    AceGetWhoType NFS4_ACL_WHO_GROUP_STRING = NFS4_ACL_WHO_GROUP ∧
    AceGetWhoType NFS4_ACL_WHO_EVERYONE_STRING = NFS4_ACL_WHO_EVERYONE ∧
    AceGetWhoType [] = NFS4_ACL_WHO_NAMED ∧
    AceGetWhoType (strBytes "owner@") = NFS4_ACL_WHO_NAMED ∧
    AceGetWhoType (strBytes "OWNER@ ") = NFS4_ACL_WHO_NAMED ∧
    (∀ who, who ≠ NFS4_ACL_WHO_OWNER_STRING → who ≠ NFS4_ACL_WHO_GROUP_STRING →
      who ≠ NFS4_ACL_WHO_EVERYONE_STRING →
      AceGetWhoType who = NFS4_ACL_WHO_NAMED) ∧
    (∀ aceType flag mask who,
      (NewNFS4ACE aceType flag mask who).WhoType = AceGetWhoType who) := by
  refine ⟨by decide, by decide, by decide, by decide, by decide, by decide,
    ?_, fun aceType flag mask who => rfl⟩
  intro who h1 h2 h3
  simp [AceGetWhoType, h1, h2, h3]

/-- Claim C6 witness: an arbitrary named principal derives NAMED, via the
universally quantified part of the derivation theorem. -/
theorem c6_who_type_witness :
    AceGetWhoType (strBytes "user1") = NFS4_ACL_WHO_NAMED :=
  c6_who_type_derivation.2.2.2.2.2.2.1 (strBytes "user1") (by decide)
    (by decide) (by decide)

/-- Claim C7: each by-who-type mutator invoked with NAMED or an out-of-range
who-type returns an error (named-who-not-allowed for NAMED, unsupported
otherwise) and leaves the ACL — every entry and every field — exactly as it
was. -/
theorem c7_by_who_type_rejects_invalid :
    ∀ (acl : NFS4ACL) (m whoType : Nat),
      whoType = NFS4_ACL_WHO_NAMED ∨ whoType > NFS4_ACL_WHO_EVERYONE →
      (ApplyAccessMaskByWhoType acl m whoType
          = (acl, some (if whoType = NFS4_ACL_WHO_NAMED then
              MutErr.namedWhoNotAllowed else MutErr.unsupportedWhoType)) ∧
       RemoveAccessMaskByWhoType acl m whoType
          = (acl, some (if whoType = NFS4_ACL_WHO_NAMED then
              MutErr.namedWhoNotAllowed else MutErr.unsupportedWhoType)) ∧
       SetAccessMaskByWhoType acl m whoType
          = (acl, some (if whoType = NFS4_ACL_WHO_NAMED then
              MutErr.namedWhoNotAllowed else MutErr.unsupportedWhoType))) := by
  intro acl m whoType h
  rcases h with h0 | hgt
  · simp [ApplyAccessMaskByWhoType, RemoveAccessMaskByWhoType,
      SetAccessMaskByWhoType, h0]
  · have h0 : whoType ≠ NFS4_ACL_WHO_NAMED := by
      simp only [NFS4_ACL_WHO_NAMED, NFS4_ACL_WHO_EVERYONE] at *
      omega
    simp [ApplyAccessMaskByWhoType, RemoveAccessMaskByWhoType,
      SetAccessMaskByWhoType, h0, Or.inr hgt]

/-- Claim C7 witness: the three mutators at NAMED (0) on a concrete one-entry
ACL return the named-who error and the untouched ACL. -/
theorem c7_by_who_type_witness :
    ApplyAccessMaskByWhoType ⟨false, [⟨0, 0, [65], 0, 5⟩]⟩ 1 0
        = (⟨false, [⟨0, 0, [65], 0, 5⟩]⟩, some MutErr.namedWhoNotAllowed) ∧
    RemoveAccessMaskByWhoType ⟨false, [⟨0, 0, [65], 0, 5⟩]⟩ 1 0
        = (⟨false, [⟨0, 0, [65], 0, 5⟩]⟩, some MutErr.namedWhoNotAllowed) ∧
    SetAccessMaskByWhoType ⟨false, [⟨0, 0, [65], 0, 5⟩]⟩ 1 0
        = (⟨false, [⟨0, 0, [65], 0, 5⟩]⟩, some MutErr.namedWhoNotAllowed) :=
  c7_by_who_type_rejects_invalid ⟨false, [⟨0, 0, [65], 0, 5⟩]⟩ 1 0 (Or.inl rfl)

/-- Claim C8: the atom padding rule rounds a byte length up to the next
multiple of 4 (the result is a multiple of 4, at least the input, and less
than the input plus 4), exact multiples — including every 4*k — are returned
unchanged, and the spec's boundary values hold. -/
theorem c8_padded_length_rounds_up :
    (∀ n, AceWhoStringAtomLength n % 4 = 0 ∧ n ≤ AceWhoStringAtomLength n ∧
      AceWhoStringAtomLength n < n + 4) ∧
    (∀ k, AceWhoStringAtomLength (4 * k) = 4 * k) ∧
    AceWhoStringAtomLength 0 = 0 ∧ AceWhoStringAtomLength 4 = 4 ∧
    AceWhoStringAtomLength 5 = 8 ∧ AceWhoStringAtomLength 7 = 8 := by
  refine ⟨fun n => ?_, fun k => ?_, by decide, by decide, by decide, by decide⟩
  · simp only [AceWhoStringAtomLength, ATOM_SIZE]
    split <;> omega
  · simp only [AceWhoStringAtomLength, ATOM_SIZE]
    split <;> omega

/-- Claim C10: decoding the 24-byte scenario buffer (count 1, type ALLOW,
flags 0, mask WRITE_DATA, who_length 6, who OWNER@ plus two padding bytes)
yields exactly one ACE with who_type OWNER, and rendering it non-verbose for
a plain file prints A::OWNER@:w. -/
theorem c10_decode_render_scenario :
    XAttrLoad [0, 0, 0, 1, 0, 0, 0, 0, 0, 0, 0, 0, 0, 0, 0, 2, 0, 0, 0, 6,
        79, 87, 78, 69, 82, 64, 0, 0] false
      = XAttrResult.ret
          ⟨false, [⟨NFS4_ACE_ACCESS_ALLOWED_ACE_TYPE, NFS4_ACL_WHO_OWNER,
            NFS4_ACL_WHO_OWNER_STRING, 0, NFS4_ACE_WRITE_DATA⟩]⟩ none ∧
    PrintACE ⟨NFS4_ACE_ACCESS_ALLOWED_ACE_TYPE, NFS4_ACL_WHO_OWNER,
        NFS4_ACL_WHO_OWNER_STRING, 0, NFS4_ACE_WRITE_DATA⟩ false false
      = strBytes "A::OWNER@:w" := by decide

/-- Claim C2 (amended): decoding the encoding of a structurally valid
in-memory ACL — 32-bit fields, who-type consistent with who, entry count
below 2^32, and (the amendment) a non-empty who string on the final entry —
succeeds and returns the ACL itself: every entry's type, who, who_type,
flags and access mask, and the entry order, are preserved. -/
theorem c2_encode_decode_roundtrip (acl : NFS4ACL)
    (hvalid : ∀ ace ∈ acl.aceList, validAce ace)
    (hcount : acl.aceList.length < 4294967296)
    (hlast : lastWhoNonempty acl.aceList = true) :
    XAttrLoad (PackXAttr acl) acl.isDirectory = .ret acl none := by
  have hdrop : (PackXAttr acl).drop ATOM_SIZE = (acl.aceList.map encodeAce).flatten := by
    show (PackXAttr acl).drop 4 = _
    simp only [PackXAttr]
    exact List.drop_left' (putU32_length _)
  have hplen : (PackXAttr acl).length =
      4 + ((acl.aceList.map encodeAce).flatten).length := by
    simp [PackXAttr, putU32]
    omega
  have hcur : ATOM_SIZE ≤ (PackXAttr acl).length := by
    show 4 ≤ _
    omega
  have hnum : readU32 (PackXAttr acl) 0 = acl.aceList.length := by
    have h0 : (PackXAttr acl).drop 0 =
        putU32 acl.aceList.length ++ (acl.aceList.map encodeAce).flatten := by
      simp [PackXAttr]
    rw [readU32_drop_eq _ _ _ _ h0, Nat.mod_eq_of_lt hcount]
  have hmain := loadAces_encode acl.aceList (PackXAttr acl) ATOM_SIZE hdrop hcur
    hvalid hlast
  simp only [XAttrLoad]
  rw [if_neg (by omega), hnum, hmain]

/-- Claim C2 witness: the round trip at a concrete one-entry ACL (type DENY,
flags 3, mask 7, named who) decodes back to itself. -/
theorem c2_roundtrip_witness :
    XAttrLoad (PackXAttr ⟨true, [⟨1, 0, [117, 115, 101, 114], 3, 7⟩]⟩) true
      = .ret ⟨true, [⟨1, 0, [117, 115, 101, 114], 3, 7⟩]⟩ none :=
  c2_encode_decode_roundtrip ⟨true, [⟨1, 0, [117, 115, 101, 114], 3, 7⟩]⟩
    (by decide) (by decide) (by decide)

/-- Claim C2 counterexample to the claim as stated: for the structurally
valid one-entry ACL whose (last) entry has the empty who string, decoding
its encoding does not succeed — the decoder's per-entry guard demands at
least one byte beyond the four header atoms, so it reports buffer overflow
instead of returning the entry list. -/
theorem c2_empty_last_who_counterexample :
    XAttrLoad (PackXAttr ⟨false, [⟨0, 0, [], 0, 0⟩]⟩) false
        = .ret ⟨false, []⟩ (some DecodeErr.bufferOverflow) ∧
    XAttrLoad (PackXAttr ⟨false, [⟨0, 0, [], 0, 0⟩]⟩) false
        ≠ .ret ⟨false, [⟨0, 0, [], 0, 0⟩]⟩ none := by decide

/-- Claim C3 (amended): for every byte buffer the decoder accepts without
error, re-encoding the resulting ACL reproduces the buffer byte for byte,
provided (the amendment) the decode walk consumes the buffer exactly — its
final cursor lands on the buffer length — and every walked padding region is
in-bounds and zero-filled. -/
theorem c3_decode_encode_roundtrip (value : List Nat) (isDir : Bool)
    (aces : List NFS4ACE)
    (hb : ∀ x ∈ value, x < 256)
    (h4 : ATOM_SIZE ≤ value.length)
    (hload : loadAces value (readU32 value 0) ATOM_SIZE = .ok aces value.length)
    (hpad : padsOk value (readU32 value 0) ATOM_SIZE = true) :
    XAttrLoad value isDir = .ret ⟨isDir, aces⟩ none ∧
      PackXAttr ⟨isDir, aces⟩ = value := by
  have hA : ATOM_SIZE = 4 := rfl
  obtain ⟨hlen, _, _, hflat⟩ := encode_of_loadAces (readU32 value 0) value
    ATOM_SIZE aces value.length hb h4 hload hpad
  constructor
  · simp only [XAttrLoad]
    rw [if_neg (by omega), hload]
  · show putU32 aces.length ++ (aces.map encodeAce).flatten = value
    rw [hlen, hflat]
    have hhead : putU32 (readU32 value 0) = (value.drop 0).take 4 :=
      putU32_readU32 value 0 hb (by omega)
    rw [hhead, List.drop_zero]
    rw [show value.length - ATOM_SIZE = (value.drop ATOM_SIZE).length from
      (List.length_drop ATOM_SIZE value).symm]
    rw [List.take_length]
    show value.take 4 ++ value.drop 4 = value
    exact List.take_append_drop 4 value

/-- Claim C3 witness: the amended round trip at a concrete 24-byte buffer
(one entry, who of length 1, zero-filled padding, no trailing bytes). -/
theorem c3_roundtrip_witness :
    XAttrLoad [0, 0, 0, 1, 0, 0, 0, 0, 0, 0, 0, 0, 0, 0, 0, 2, 0, 0, 0, 1,
        65, 0, 0, 0] false
      = .ret ⟨false, [⟨0, 0, [65], 0, 2⟩]⟩ none ∧
    PackXAttr ⟨false, [⟨0, 0, [65], 0, 2⟩]⟩
      = [0, 0, 0, 1, 0, 0, 0, 0, 0, 0, 0, 0, 0, 0, 0, 2, 0, 0, 0, 1,
        65, 0, 0, 0] :=
  c3_decode_encode_roundtrip
    [0, 0, 0, 1, 0, 0, 0, 0, 0, 0, 0, 0, 0, 0, 0, 2, 0, 0, 0, 1, 65, 0, 0, 0]
    false [⟨0, 0, [65], 0, 2⟩] (by decide) (by decide) (by decide) (by decide)

/-- Claim C9: every mutation operation — apply, remove, set, targeting all
entries, by who-type (with a valid target), or by literal who — relates the
old and new entry lists pointwise in order (hence preserving entry count and
order), changes only the access mask of the entries its predicate selects
(other fields and the directory flag untouched, non-selected entries
returned exactly), and a call selecting zero entries succeeds with the ACL
identical. -/
theorem c9_mutation_frame :
    ∀ (acl : NFS4ACL) (m : Nat) (who : List Nat) (whoType : Nat),
      ((ApplyAccessMask acl m).isDirectory = acl.isDirectory ∧
       List.Forall₂ (fun a b => sameButMask a b (a.AccessMask ||| m))
         acl.aceList (ApplyAccessMask acl m).aceList) ∧
      ((RemoveAccessMask acl m).isDirectory = acl.isDirectory ∧
       List.Forall₂ (fun a b => sameButMask a b (Nat.ldiff a.AccessMask m))
         acl.aceList (RemoveAccessMask acl m).aceList) ∧
      ((SetAccessMask acl m).isDirectory = acl.isDirectory ∧
       List.Forall₂ (fun a b => sameButMask a b m)
         acl.aceList (SetAccessMask acl m).aceList) ∧
      ((ApplyAccessMaskByWho acl m who).2 = none ∧
       (ApplyAccessMaskByWho acl m who).1.isDirectory = acl.isDirectory ∧
       List.Forall₂ (fun a b => if a.Who = who then
           sameButMask a b (a.AccessMask ||| m) else b = a)
         acl.aceList (ApplyAccessMaskByWho acl m who).1.aceList) ∧
      ((RemoveAccessMaskByWho acl m who).2 = none ∧
       (RemoveAccessMaskByWho acl m who).1.isDirectory = acl.isDirectory ∧
       List.Forall₂ (fun a b => if a.Who = who then
           sameButMask a b (Nat.ldiff a.AccessMask m) else b = a)
         acl.aceList (RemoveAccessMaskByWho acl m who).1.aceList) ∧
      ((SetAccessMaskByWho acl m who).2 = none ∧
       (SetAccessMaskByWho acl m who).1.isDirectory = acl.isDirectory ∧
       List.Forall₂ (fun a b => if a.Who = who then sameButMask a b m else b = a)
         acl.aceList (SetAccessMaskByWho acl m who).1.aceList) ∧
      (1 ≤ whoType → whoType ≤ 3 →
        (ApplyAccessMaskByWhoType acl m whoType).2 = none ∧
        (ApplyAccessMaskByWhoType acl m whoType).1.isDirectory = acl.isDirectory ∧
        List.Forall₂ (fun a b => if a.WhoType = whoType then
            sameButMask a b (a.AccessMask ||| m) else b = a)
          acl.aceList (ApplyAccessMaskByWhoType acl m whoType).1.aceList ∧
        (RemoveAccessMaskByWhoType acl m whoType).2 = none ∧
        List.Forall₂ (fun a b => if a.WhoType = whoType then
            sameButMask a b (Nat.ldiff a.AccessMask m) else b = a)
          acl.aceList (RemoveAccessMaskByWhoType acl m whoType).1.aceList ∧
        (SetAccessMaskByWhoType acl m whoType).2 = none ∧
        List.Forall₂ (fun a b => if a.WhoType = whoType then
            sameButMask a b m else b = a)
          acl.aceList (SetAccessMaskByWhoType acl m whoType).1.aceList) ∧
      ((∀ ace ∈ acl.aceList, ace.Who ≠ who) →
        ApplyAccessMaskByWho acl m who = (acl, none) ∧
        RemoveAccessMaskByWho acl m who = (acl, none) ∧
        SetAccessMaskByWho acl m who = (acl, none)) ∧
      (1 ≤ whoType → whoType ≤ 3 →
        (∀ ace ∈ acl.aceList, ace.WhoType ≠ whoType) →
        ApplyAccessMaskByWhoType acl m whoType = (acl, none) ∧
        RemoveAccessMaskByWhoType acl m whoType = (acl, none) ∧
        SetAccessMaskByWhoType acl m whoType = (acl, none)) := by
  intro acl m who whoType
  have hguard : ∀ h1 : 1 ≤ whoType, ∀ h3 : whoType ≤ 3,
      ¬ whoType = NFS4_ACL_WHO_NAMED ∧
      ¬ (whoType < NFS4_ACL_WHO_NAMED ∨ whoType > NFS4_ACL_WHO_EVERYONE) := by
    intro h1 h3
    constructor
    · simp only [NFS4_ACL_WHO_NAMED]; omega
    · simp only [NFS4_ACL_WHO_NAMED, NFS4_ACL_WHO_EVERYONE]; omega
  refine ⟨⟨rfl, ?_⟩, ⟨rfl, ?_⟩, ⟨rfl, ?_⟩, ⟨rfl, rfl, ?_⟩, ⟨rfl, rfl, ?_⟩,
    ⟨rfl, rfl, ?_⟩, ?_, ?_, ?_⟩
  · exact forall2_map_self acl.aceList
      (fun a _ => by simp [sameButMask, applyAccessMask])
  · exact forall2_map_self acl.aceList
      (fun a _ => by simp [sameButMask, removeAccessMask])
  · exact forall2_map_self acl.aceList
      (fun a _ => by simp [sameButMask, setAccessMask])
  · exact forall2_map_self acl.aceList (fun a _ => by
      by_cases hc : a.Who = who <;> simp [hc, sameButMask, applyAccessMask])
  · exact forall2_map_self acl.aceList (fun a _ => by
      by_cases hc : a.Who = who <;> simp [hc, sameButMask, removeAccessMask])
  · exact forall2_map_self acl.aceList (fun a _ => by
      by_cases hc : a.Who = who <;> simp [hc, sameButMask, setAccessMask])
  · intro h1 h3
    obtain ⟨hne, hcond⟩ := hguard h1 h3
    have e1 : ApplyAccessMaskByWhoType acl m whoType =
        ({ acl with aceList := acl.aceList.map (fun ace =>
          if ace.WhoType = whoType then applyAccessMask ace m else ace) },
          none) := by
      simp only [ApplyAccessMaskByWhoType, if_neg hne, if_neg hcond]
    have e2 : RemoveAccessMaskByWhoType acl m whoType =
        ({ acl with aceList := acl.aceList.map (fun ace =>
          if ace.WhoType = whoType then removeAccessMask ace m else ace) },
          none) := by
      simp only [RemoveAccessMaskByWhoType, if_neg hne, if_neg hcond]
    have e3 : SetAccessMaskByWhoType acl m whoType =
        ({ acl with aceList := acl.aceList.map (fun ace =>
          if ace.WhoType = whoType then setAccessMask ace m else ace) },
          none) := by
      simp only [SetAccessMaskByWhoType, if_neg hne, if_neg hcond]
    rw [e1, e2, e3]
    refine ⟨rfl, rfl, ?_, rfl, ?_, rfl, ?_⟩
    · exact forall2_map_self acl.aceList (fun a _ => by
        by_cases hc : a.WhoType = whoType <;>
          simp [hc, sameButMask, applyAccessMask])
    · exact forall2_map_self acl.aceList (fun a _ => by
        by_cases hc : a.WhoType = whoType <;>
          simp [hc, sameButMask, removeAccessMask])
    · exact forall2_map_self acl.aceList (fun a _ => by
        by_cases hc : a.WhoType = whoType <;>
          simp [hc, sameButMask, setAccessMask])
  · intro hnone
    have hmap : ∀ (g : NFS4ACE → Nat → NFS4ACE),
        acl.aceList.map (fun ace => if ace.Who = who then g ace m else ace)
          = acl.aceList := by
      intro g
      have hid : ∀ a ∈ acl.aceList,
          (if a.Who = who then g a m else a) = id a := by
        intro a ha
        simp [hnone a ha]
      rw [List.map_congr_left hid, List.map_id]
    refine ⟨?_, ?_, ?_⟩ <;>
      simp [ApplyAccessMaskByWho, RemoveAccessMaskByWho, SetAccessMaskByWho,
        hmap _]
  · intro h1 h3 hnone
    obtain ⟨hne, hcond⟩ := hguard h1 h3
    have hmap : ∀ (g : NFS4ACE → Nat → NFS4ACE),
        acl.aceList.map (fun ace => if ace.WhoType = whoType then g ace m else ace)
          = acl.aceList := by
      intro g
      have hid : ∀ a ∈ acl.aceList,
          (if a.WhoType = whoType then g a m else a) = id a := by
        intro a ha
        simp [hnone a ha]
      rw [List.map_congr_left hid, List.map_id]
    refine ⟨?_, ?_, ?_⟩ <;>
      simp [ApplyAccessMaskByWhoType, RemoveAccessMaskByWhoType,
        SetAccessMaskByWhoType, if_neg hne, if_neg hcond, hmap _]

/-- Claim C9 witness: zero-selection calls at a concrete one-entry ACL (who
B, who-type NAMED) with a non-matching literal who and a non-matching valid
who-type succeed and return the ACL unchanged. -/
theorem c9_mutation_frame_witness :
    ApplyAccessMaskByWho ⟨false, [⟨0, 0, [66], 0, 1⟩]⟩ 2 [67]
        = (⟨false, [⟨0, 0, [66], 0, 1⟩]⟩, none) ∧
    SetAccessMaskByWhoType ⟨false, [⟨0, 0, [66], 0, 1⟩]⟩ 2 1
        = (⟨false, [⟨0, 0, [66], 0, 1⟩]⟩, none) :=
  ⟨((c9_mutation_frame ⟨false, [⟨0, 0, [66], 0, 1⟩]⟩ 2 [67] 1).2.2.2.2.2.2.2.1
      (by decide)).1,
   ((c9_mutation_frame ⟨false, [⟨0, 0, [66], 0, 1⟩]⟩ 2 [67] 1).2.2.2.2.2.2.2.2
      (by decide) (by decide) (by decide)).2.2⟩

/-- Claim C3 counterexample to the claim as stated: the 5-byte buffer with
entry count 0 and one trailing byte is accepted by decode (the trailing byte
is never looked at), but re-encoding the resulting empty ACL yields only the
4-byte count atom, not the original buffer. -/
theorem c3_trailing_byte_counterexample :
    XAttrLoad [0, 0, 0, 0, 0] false = .ret ⟨false, []⟩ none ∧
    PackXAttr ⟨false, []⟩ ≠ [0, 0, 0, 0, 0] := by decide

end Nfs4acl
